import Mathlib

/-!
Verification of the hotspot-detection pipeline of `src/app.py` (`analyzer_tab`,
lines 63-86).  The pipeline is embedded shallowly over `ℚ`:

* the raster band is a `List (List ℚ)` of samples (row-major);
* `nodataOr` models line 68, `nodata = src.nodata or -9999` (Python `or`
  replaces a falsy declared sentinel - `None` or `0.0` - by `-9999`);
* `maskNodata` models line 72, `data[data == nodata] = np.nan`, with `none`
  standing for NaN;
* `validVals` models line 75, `valid_vals = data[~np.isnan(data)]`;
* `percentile` models line 76, `np.percentile(valid_vals, upper_percentile)`
  (linear interpolation between order statistics; error on an empty input or
  an out-of-range percentile);
* `cellIndices` / `isHot` / `hotspotCells` model line 80,
  `rows, cols = np.where(data > threshold)` (row-major index enumeration;
  NaN compares false);
* `xyCenter` models line 82, `rasterio.transform.xy(transform, r, c)` with the
  default center offset: `x = a*(c+0.5) + b*(r+0.5) + c0`,
  `y = d*(c+0.5) + e*(r+0.5) + f`;
* `round6` models lines 84-85, `float(np.round(lat, 6))` (round half to even);
* `analyze` chains the above and also reports `valid_vals.size` and
  `data.size` as used by the metrics dashboard (lines 115-118).
-/

/-- Affine transform coefficients `(a, b, c, d, e, f)` in rasterio order:
`x = a*col + b*row + c`, `y = d*col + e*row + f`. -/
structure Affine where
  a : ℚ
  b : ℚ
  c : ℚ
  d : ℚ
  e : ℚ
  f : ℚ

/-- Line 68: `nodata = src.nodata or -9999`.  Python `or` takes the right
operand when the left is falsy (`None`, or the float `0.0`). -/
def nodataOr (declared : Option ℚ) : ℚ :=
  match declared with
  | none => -9999
  | some v => if v = 0 then -9999 else v

/-- Line 72: `data[data == nodata] = np.nan`; `none` plays the role of NaN. -/
def maskNodata (band : List (List ℚ)) (nodata : ℚ) : List (List (Option ℚ)) :=
  band.map (fun row => row.map (fun v => if v = nodata then none else some v))

/-- Line 75: `valid_vals = data[~np.isnan(data)]`. -/
def validVals (data : List (List (Option ℚ))) : List ℚ :=
  data.flatten.filterMap id

/-- Linear interpolation between order statistics of the sorted list `s` of
length `m + 1` at fractional index `h`: numpy's default interpolation for
`np.percentile`. -/
def interpAt (s : List ℚ) (m : ℕ) (h : ℚ) : ℚ :=
  s.getD ⌊h⌋.toNat 0 + (h - ⌊h⌋) * (s.getD (min (⌊h⌋.toNat + 1) m) 0 - s.getD ⌊h⌋.toNat 0)

/-- Line 76: `np.percentile(valid_vals, p)` with the default linear
interpolation: index `h = p/100 * (n-1)`, interpolate between the order
statistics at `⌊h⌋` and `⌈h⌉`.  numpy raises (caught by the handler at
line 124) when the input is empty or `p` is outside `[0, 100]`; both are
modelled by `none`. -/
def percentile (vals : List ℚ) (p : ℚ) : Option ℚ :=
  if p < 0 ∨ 100 < p then none
  else if vals.length = 0 then none
  else some (interpAt (vals.insertionSort (· ≤ ·)) (vals.length - 1)
    (p / 100 * ((vals.length : ℚ) - 1)))

/-- The sample held at zero-based `(r, c)` of the masked grid (`none` when the
cell is masked or the index is out of bounds). -/
def cellVal (data : List (List (Option ℚ))) (r c : ℕ) : Option ℚ :=
  (data.getD r []).getD c none

/-- All zero-based `(row, col)` indices of the grid, in row-major order:
the order in which `np.where` reports indices of a 2-D array. -/
def cellIndices (data : List (List (Option ℚ))) : List (ℕ × ℕ) :=
  (List.range data.length).flatMap fun r =>
    (List.range (data.getD r []).length).map fun c => (r, c)

/-- Line 80: the predicate of `data > threshold` at one cell; NaN (`none`)
compares false. -/
def isHot (data : List (List (Option ℚ))) (t : ℚ) (rc : ℕ × ℕ) : Bool :=
  match cellVal data rc.1 rc.2 with
  | some v => decide (t < v)
  | none => false

/-- Line 80: `rows, cols = np.where(data > threshold)`, as the row-major list
of qualifying indices. -/
def hotspotCells (data : List (List (Option ℚ))) (t : ℚ) : List (ℕ × ℕ) :=
  (cellIndices data).filter (isHot data t)

/-- Line 82: `rasterio.transform.xy(transform, r, c)` with the default
`offset="center"`: the transform is applied at `(col + 0.5, row + 0.5)` and
returns `(x, y)`. -/
def xyCenter (T : Affine) (r c : ℕ) : ℚ × ℚ :=
  (T.a * ((c : ℚ) + 1/2) + T.b * ((r : ℚ) + 1/2) + T.c,
   T.d * ((c : ℚ) + 1/2) + T.e * ((r : ℚ) + 1/2) + T.f)

/-- Round to the nearest integer, ties to even: the rounding mode of
`np.round`. -/
def roundHalfEvenInt (x : ℚ) : ℤ :=
  if x - ⌊x⌋ < 1/2 then ⌊x⌋
  else if 1/2 < x - ⌊x⌋ then ⌊x⌋ + 1
  else if ⌊x⌋ % 2 = 0 then ⌊x⌋ else ⌊x⌋ + 1

/-- Lines 84-85: `np.round(·, 6)`. -/
def round6 (x : ℚ) : ℚ :=
  (roundHalfEvenInt (x * 1000000) : ℚ) / 1000000

/-- Lines 81-86: the `[lat, lon]` pair appended for one qualifying cell
(`lon, lat = xy(...)`, then `[round(lat, 6), round(lon, 6)]`). -/
def hotspotCoord (T : Affine) (rc : ℕ × ℕ) : ℚ × ℚ :=
  (round6 (xyCenter T rc.1 rc.2).2, round6 (xyCenter T rc.1 rc.2).1)

/-- Everything the pipeline hands to the presentation layer: the threshold
(line 76), the hotspot list (lines 79-86), `valid_vals.size` and `data.size`
(line 118). -/
structure RunResult where
  threshold : ℚ
  hotspots : List (ℚ × ℚ)
  validCount : ℕ
  totalCount : ℕ

/-- Lines 63-86 as one function: load parameters, mask the sentinel, take the
percentile threshold, extract and convert hotspots.  `none` is the exception
path (lines 124-131): the handler shows a processing error and stops, so no
threshold and no hotspot list are produced. -/
def analyze (band : List (List ℚ)) (T : Affine) (declared : Option ℚ) (p : ℚ) :
    Option RunResult :=
  match percentile (validVals (maskNodata band (nodataOr declared))) p with
  | none => none
  | some t =>
    some ⟨t, (hotspotCells (maskNodata band (nodataOr declared)) t).map (hotspotCoord T),
      (validVals (maskNodata band (nodataOr declared))).length,
      (maskNodata band (nodataOr declared)).flatten.length⟩

/-- Row-major order on zero-based cell indices: earlier row, or same row and
earlier column. -/
def rowMajorLt (x y : ℕ × ℕ) : Prop :=
  x.1 < y.1 ∨ (x.1 = y.1 ∧ x.2 < y.2)

/-- A concrete affine transform used to exercise the pipeline:
`x = 1*col + 0*row + 10`, `y = 0*col + 1*row + 20`. -/
def T0 : Affine :=
  ⟨1, 0, 10, 0, 1, 20⟩

/-- Floors of concrete rationals, via the characterisation of `Int.floor`. -/
theorem floor_eq_of (z : ℤ) (x : ℚ) (h1 : (z : ℚ) ≤ x) (h2 : x < z + 1) : ⌊x⌋ = z :=
  Int.floor_eq_iff.mpr ⟨h1, h2⟩

/-- C1: on the grid `[[1,2],[3,100]]` with sentinel `-9999`, the valid values
are `[1,2,3,100]`, the 75th percentile with linear interpolation is `27.25`,
and the only hotspot cell is the zero-based `(1,1)`. -/
theorem C1_scenario_grid :
    validVals (maskNodata [[1, 2], [3, 100]] (-9999)) = [1, 2, 3, 100]
    ∧ percentile [1, 2, 3, 100] (75 : ℚ) = some 27.25
    ∧ hotspotCells (maskNodata [[1, 2], [3, 100]] (-9999)) 27.25 = [(1, 1)] := by
  have hmask : maskNodata [[1, 2], [3, 100]] (-9999)
      = [[some 1, some 2], [some 3, some 100]] := by
    norm_num [maskNodata]
  refine ⟨?_, ?_, ?_⟩
  · rw [hmask]; rfl
  · have hsort : List.insertionSort (· ≤ ·) [(1 : ℚ), 2, 3, 100] = [1, 2, 3, 100] := by
      norm_num [List.insertionSort, List.orderedInsert]
    have hf : ⌊((9 : ℚ) / 4)⌋ = 2 := floor_eq_of 2 _ (by norm_num) (by norm_num)
    have hi : interpAt [1, 2, 3, 100] 3 ((9 : ℚ) / 4) = 109 / 4 := by
      rw [interpAt, hf]
      show (3 : ℚ) + ((9 : ℚ) / 4 - ((2 : ℤ) : ℚ)) * (100 - 3) = 109 / 4
      norm_num
    have harg : (75 : ℚ) / 100 * (((4 : ℕ) : ℚ) - 1) = 9 / 4 := by norm_num
    norm_num [percentile, hsort, harg, hi]
  · rw [hmask]
    have h2725 : (27.25 : ℚ) = 109 / 4 := by norm_num
    have hidx : cellIndices [[some 1, some 2], [some 3, some 100]]
        = [(0, 0), (0, 1), (1, 0), (1, 1)] := rfl
    have c00 : cellVal [[some 1, some 2], [some 3, some 100]] 0 0 = some 1 := rfl
    have c01 : cellVal [[some 1, some 2], [some 3, some 100]] 0 1 = some 2 := rfl
    have c10 : cellVal [[some 1, some 2], [some 3, some 100]] 1 0 = some 3 := rfl
    have c11 : cellVal [[some 1, some 2], [some 3, some 100]] 1 1 = some 100 := rfl
    rw [h2725]
    norm_num [hotspotCells, hidx, List.filter_cons, isHot, c00, c01, c10, c11,
      decide_eq_true_eq]

/-- numpy percentile errors out on an empty input (modelled by `none`). -/
theorem percentile_nil (p : ℚ) : percentile [] p = none := by
  unfold percentile
  split
  · rfl
  · rfl

/-- Unfolding of `analyze` on the success path of line 76. -/
theorem analyze_eq_some {band : List (List ℚ)} {T : Affine} {declared : Option ℚ} {p t : ℚ}
    (h : percentile (validVals (maskNodata band (nodataOr declared))) p = some t) :
    analyze band T declared p
      = some ⟨t, (hotspotCells (maskNodata band (nodataOr declared)) t).map (hotspotCoord T),
          (validVals (maskNodata band (nodataOr declared))).length,
          (maskNodata band (nodataOr declared)).flatten.length⟩ := by
  unfold analyze
  rw [h]

/-- Unfolding of `analyze` on the exception path of lines 124-131. -/
theorem analyze_eq_none {band : List (List ℚ)} {T : Affine} {declared : Option ℚ} {p : ℚ}
    (h : percentile (validVals (maskNodata band (nodataOr declared))) p = none) :
    analyze band T declared p = none := by
  unfold analyze
  rw [h]

/-- Keeping the non-sentinel entries of one row. -/
theorem filterMap_mask (l : List ℚ) (nodata : ℚ) :
    (l.map (fun v => if v = nodata then none else some v)).filterMap id
      = l.filter (fun v => v != nodata) := by
  induction l with
  | nil => rfl
  | cons a l ih =>
    by_cases h : a = nodata <;> simp [List.filter_cons, h, ih]

/-- Line 75 against line 72: the valid values are exactly the samples that
differ from the sentinel, in row-major order. -/
theorem validVals_maskNodata (band : List (List ℚ)) (nodata : ℚ) :
    validVals (maskNodata band nodata) = band.flatten.filter (fun v => v != nodata) := by
  induction band with
  | nil => rfl
  | cons row rest ih =>
    simp only [validVals, maskNodata, List.map_cons, List.flatten_cons,
      List.filterMap_append, List.filter_append]
    rw [filterMap_mask]
    exact congrArg _ ih

/-- Masking one row, read through `getD`; reading out of bounds behaves like
reading the sentinel. -/
theorem getD_mask_row (row : List ℚ) (nodata : ℚ) (c : ℕ) :
    (row.map (fun v => if v = nodata then none else some v)).getD c none
      = if row.getD c nodata = nodata then none
        else some (row.getD c nodata) := by
  rw [List.getD_eq_getElem?_getD, List.getD_eq_getElem?_getD, List.getElem?_map]
  cases h : row[c]? with
  | none => simp
  | some v => simp

/-- The masked sample at `(r, c)` is the sentinel test applied to the raw
sample at `(r, c)`; reading out of bounds behaves like reading the
sentinel. -/
theorem cellVal_maskNodata (band : List (List ℚ)) (nodata : ℚ) (r c : ℕ) :
    cellVal (maskNodata band nodata) r c
      = if (band.getD r []).getD c nodata = nodata then none
        else some ((band.getD r []).getD c nodata) := by
  unfold cellVal maskNodata
  rw [List.getD_eq_getElem?_getD (band.map _), List.getElem?_map]
  cases h : band[r]? with
  | none =>
    rw [show band.getD r [] = [] from by rw [List.getD_eq_getElem?_getD, h]; rfl]
    simp
  | some row =>
    rw [show band.getD r [] = row from by rw [List.getD_eq_getElem?_getD, h]; rfl]
    simpa using getD_mask_row row nodata c

/-- Characterisation of the `data > threshold` test at one cell. -/
theorem isHot_iff {data : List (List (Option ℚ))} {t : ℚ} {rc : ℕ × ℕ} :
    isHot data t rc = true ↔ ∃ v, cellVal data rc.1 rc.2 = some v ∧ t < v := by
  unfold isHot
  cases h : cellVal data rc.1 rc.2 <;> simp [h]

/-- Membership in the hotspot index list. -/
theorem mem_hotspotCells {data : List (List (Option ℚ))} {t : ℚ} {r c : ℕ} :
    (r, c) ∈ hotspotCells data t
      ↔ (r, c) ∈ cellIndices data ∧ ∃ v, cellVal data r c = some v ∧ t < v := by
  unfold hotspotCells
  rw [List.mem_filter, isHot_iff]

/-- A cell that holds a sample is inside the grid bounds. -/
theorem cellVal_mem_cellIndices {data : List (List (Option ℚ))} {r c : ℕ} {v : ℚ}
    (h : cellVal data r c = some v) : (r, c) ∈ cellIndices data := by
  unfold cellVal at h
  rcases Nat.lt_or_ge r data.length with hr | hr
  · rcases Nat.lt_or_ge c (data.getD r []).length with hc | hc
    · unfold cellIndices
      rw [List.mem_flatMap]
      exact ⟨r, List.mem_range.mpr hr, List.mem_map.mpr ⟨c, List.mem_range.mpr hc, rfl⟩⟩
    · rw [List.getD_eq_default _ _ hc] at h
      cases h
  · rw [List.getD_eq_default _ _ hr] at h
    rw [List.getD_eq_default _ _ (by simp : ([] : List (Option ℚ)).length ≤ c)] at h
    cases h

/-- Any sample held by some cell of the masked grid is among the valid
values. -/
theorem cellVal_mem_validVals {data : List (List (Option ℚ))} {r c : ℕ} {v : ℚ}
    (h : cellVal data r c = some v) : v ∈ validVals data := by
  unfold cellVal at h
  rcases Nat.lt_or_ge r data.length with hr | hr
  · rcases Nat.lt_or_ge c (data.getD r []).length with hc | hc
    · have hrow : data.getD r [] ∈ data := by
        rw [List.getD_eq_getElem _ _ hr]
        exact List.getElem_mem hr
      have hcell : some v ∈ data.getD r [] := by
        rw [List.getD_eq_getElem _ _ hc] at h
        rw [← h]
        exact List.getElem_mem hc
      unfold validVals
      rw [List.mem_filterMap]
      exact ⟨some v, List.mem_flatten.mpr ⟨_, hrow, hcell⟩, rfl⟩
    · rw [List.getD_eq_default _ _ hc] at h
      cases h
  · rw [List.getD_eq_default _ _ hr] at h
    rw [List.getD_eq_default _ _ (by simp : ([] : List (Option ℚ)).length ≤ c)] at h
    cases h

/-- C2: for every grid, every sentinel value and any threshold, samples equal
to the sentinel are excluded from the valid values (the list the threshold and
the coverage count are computed from), and a cell holding the sentinel is
never a hotspot cell. -/
theorem C2_sentinel_excluded (band : List (List ℚ)) (nodata t : ℚ) (r c : ℕ)
    (hcell : (band.getD r []).getD c nodata = nodata) :
    validVals (maskNodata band nodata) = band.flatten.filter (fun v => v != nodata)
    ∧ (r, c) ∉ hotspotCells (maskNodata band nodata) t := by
  refine ⟨validVals_maskNodata band nodata, fun hmem => ?_⟩
  obtain ⟨_, v, hv, _⟩ := mem_hotspotCells.mp hmem
  rw [cellVal_maskNodata, hcell, if_pos rfl] at hv
  cases hv

/-- Witness for C2 at the grid `[[5, -7]]` with sentinel `-7`: the valid
values are `[5]` and the sentinel cell `(0, 1)` is not a hotspot cell. -/
theorem C2_sentinel_excluded_witness :
    ((([[5, -7]] : List (List ℚ)).getD 0 []).getD 1 (-7) = -7)
    ∧ (validVals (maskNodata [[5, -7]] (-7))
          = ([[(5 : ℚ), -7]].flatten.filter (fun v => v != -7))
        ∧ (0, 1) ∉ hotspotCells (maskNodata [[5, -7]] (-7)) 0) :=
  ⟨rfl, C2_sentinel_excluded [[5, -7]] (-7) 0 0 1 rfl⟩

/-- C3: a cell is a hotspot cell only when it holds a sample strictly greater
than the threshold; in particular a cell holding exactly the threshold is
never a hotspot cell. -/
theorem C3_strictly_greater (data : List (List (Option ℚ))) (t : ℚ) (r c : ℕ) :
    ((r, c) ∈ hotspotCells data t → ∃ v, cellVal data r c = some v ∧ t < v)
    ∧ (cellVal data r c = some t → (r, c) ∉ hotspotCells data t) := by
  constructor
  · intro h
    exact (mem_hotspotCells.mp h).2
  · intro hv hmem
    obtain ⟨_, w, hw, htw⟩ := mem_hotspotCells.mp hmem
    rw [hv] at hw
    cases hw
    exact lt_irrefl t htw

/-- Witness for C3: in the masked grid `[[some 1, some 100]]` with threshold
`100`, the cell `(0, 1)` holds exactly the threshold and is not a hotspot
cell. -/
theorem C3_strictly_greater_witness :
    cellVal [[some 1, some 100]] 0 1 = some 100
    ∧ (0, 1) ∉ hotspotCells [[some 1, some 100]] 100 :=
  ⟨rfl, (C3_strictly_greater [[some 1, some 100]] 100 0 1).2 rfl⟩

/-- C9: a declared nodata sentinel of `0` (the only falsy float) is replaced
by `-9999` at line 68, so after masking, samples equal to `0` are kept among
the valid values and samples equal to `-9999` are masked out instead. -/
theorem C9_falsy_nodata_replaced :
    nodataOr (some 0) = -9999
    ∧ ∀ band : List (List ℚ),
        validVals (maskNodata band (nodataOr (some 0)))
          = band.flatten.filter (fun v => v != -9999) := by
  refine ⟨rfl, fun band => ?_⟩
  rw [show nodataOr (some 0) = -9999 from rfl]
  exact validVals_maskNodata band (-9999)

/-- C5 counterexample: on a grid consisting only of the sentinel, the run does
not complete with an empty hotspot list and a zero threshold; `np.percentile`
raises on the empty valid set, so the pipeline takes the exception path and
produces no result at all. -/
theorem C5_counterexample :
    analyze [[-9999, -9999], [-9999, -9999]] T0 (some (-9999)) 75 = none := by
  have hmask : maskNodata [[-9999, -9999], [-9999, -9999]] (nodataOr (some (-9999)))
      = [[none, none], [none, none]] := by
    norm_num [maskNodata, nodataOr]
  apply analyze_eq_none
  rw [hmask]
  exact percentile_nil 75

/-- C5 (amended): whenever zero valid samples remain after masking, the run
fails through the exception handler (no threshold, no hotspot list), instead
of completing. -/
theorem C5_empty_valid_fails (band : List (List ℚ)) (T : Affine) (declared : Option ℚ)
    (p : ℚ) (h : validVals (maskNodata band (nodataOr declared)) = []) :
    analyze band T declared p = none := by
  apply analyze_eq_none
  rw [h]
  exact percentile_nil p

/-- Witness for the amended C5 on the all-sentinel grid `[[-9999]]`. -/
theorem C5_empty_valid_fails_witness :
    validVals (maskNodata [[-9999]] (nodataOr (some (-9999)))) = []
    ∧ analyze [[-9999]] T0 (some (-9999)) 95 = none := by
  have h : validVals (maskNodata [[-9999]] (nodataOr (some (-9999)))) = [] := by
    norm_num [maskNodata, nodataOr, validVals]
  exact ⟨h, C5_empty_valid_fails [[-9999]] T0 (some (-9999)) 95 h⟩

/-- `np.round(x, 6)` returns `x` itself whenever `x` is an exact multiple of
`1e-6`. -/
theorem round6_eq_self_of_mul (x : ℚ) (k : ℤ) (h : x * 1000000 = (k : ℚ)) :
    round6 x = x := by
  unfold round6 roundHalfEvenInt
  rw [h, Int.floor_intCast, if_pos (by norm_num : ((k : ℚ)) - ((k : ℤ) : ℚ) < 1/2)]
  rw [div_eq_iff (by norm_num : (1000000 : ℚ) ≠ 0)]
  exact h.symm

/-- The sorted order statistics of `[1,2,3,100]`. -/
theorem sort2_eq : List.insertionSort (· ≤ ·) [(1 : ℚ), 2, 3, 100] = [1, 2, 3, 100] := by
  norm_num [List.insertionSort, List.orderedInsert]

/-- 75th percentile of `[1,2,3,100]`, with linear interpolation. -/
theorem perc2_75 : percentile [1, 2, 3, 100] (75 : ℚ) = some (109/4) := by
  have hf : ⌊((9 : ℚ) / 4)⌋ = 2 := floor_eq_of 2 _ (by norm_num) (by norm_num)
  have hi : interpAt [1, 2, 3, 100] 3 ((9 : ℚ) / 4) = 109 / 4 := by
    rw [interpAt, hf]
    show (3 : ℚ) + ((9 : ℚ) / 4 - ((2 : ℤ) : ℚ)) * (100 - 3) = 109 / 4
    norm_num
  have harg : (75 : ℚ) / 100 * (((4 : ℕ) : ℚ) - 1) = 9 / 4 := by norm_num
  norm_num [percentile, sort2_eq, harg, hi]

/-- 100th percentile of `[1,2,3,100]` is the maximum, `100`. -/
theorem perc2_100 : percentile [1, 2, 3, 100] (100 : ℚ) = some 100 := by
  have hf : ⌊((3 : ℚ))⌋ = 3 := floor_eq_of 3 _ (by norm_num) (by norm_num)
  have hi : interpAt [1, 2, 3, 100] 3 ((3 : ℚ)) = 100 := by
    rw [interpAt, hf]
    show (100 : ℚ) + ((3 : ℚ) - ((3 : ℤ) : ℚ)) * ((100 : ℚ) - 100) = 100
    norm_num
  have harg : (100 : ℚ) / 100 * (((4 : ℕ) : ℚ) - 1) = 3 := by norm_num
  norm_num [percentile, sort2_eq, harg, hi]

/-- Hotspot cells of the masked `[[1,2],[3,100]]` at threshold `109/4`. -/
theorem cells2_75 :
    hotspotCells [[some 1, some 2], [some 3, some 100]] (109/4) = [(1, 1)] := by
  have hidx : cellIndices [[some 1, some 2], [some 3, some 100]]
      = [(0, 0), (0, 1), (1, 0), (1, 1)] := rfl
  have c00 : cellVal [[some 1, some 2], [some 3, some 100]] 0 0 = some 1 := rfl
  have c01 : cellVal [[some 1, some 2], [some 3, some 100]] 0 1 = some 2 := rfl
  have c10 : cellVal [[some 1, some 2], [some 3, some 100]] 1 0 = some 3 := rfl
  have c11 : cellVal [[some 1, some 2], [some 3, some 100]] 1 1 = some 100 := rfl
  norm_num [hotspotCells, hidx, List.filter_cons, isHot, c00, c01, c10, c11,
    decide_eq_true_eq]

/-- Hotspot cells of the masked `[[1,2],[3,100]]` at threshold `100`: none,
by strictness of the comparison. -/
theorem cells2_100 :
    hotspotCells [[some 1, some 2], [some 3, some 100]] 100 = [] := by
  have hidx : cellIndices [[some 1, some 2], [some 3, some 100]]
      = [(0, 0), (0, 1), (1, 0), (1, 1)] := rfl
  have c00 : cellVal [[some 1, some 2], [some 3, some 100]] 0 0 = some 1 := rfl
  have c01 : cellVal [[some 1, some 2], [some 3, some 100]] 0 1 = some 2 := rfl
  have c10 : cellVal [[some 1, some 2], [some 3, some 100]] 1 0 = some 3 := rfl
  have c11 : cellVal [[some 1, some 2], [some 3, some 100]] 1 1 = some 100 := rfl
  norm_num [hotspotCells, hidx, List.filter_cons, isHot, c00, c01, c10, c11,
    decide_eq_true_eq]

/-- Coordinate emitted for cell `(1,1)` under `T0`: the cell-center transform
gives `(x, y) = (23/2, 43/2)`, emitted as `(lat, lon) = (43/2, 23/2)`. -/
theorem coord_T0_11 : hotspotCoord T0 (1, 1) = (43/2, 23/2) := by
  have hxy : xyCenter T0 1 1 = (23/2, 43/2) := by
    norm_num [xyCenter, T0, Prod.ext_iff]
  rw [hotspotCoord]
  show (round6 (xyCenter T0 1 1).2, round6 (xyCenter T0 1 1).1) = (43/2, 23/2)
  rw [hxy]
  show (round6 (43/2), round6 (23/2)) = ((43 : ℚ)/2, (23 : ℚ)/2)
  rw [round6_eq_self_of_mul _ 21500000 (by norm_num),
    round6_eq_self_of_mul _ 11500000 (by norm_num)]

/-- Masking `[[1,2],[3,100]]` with the defaulted sentinel. -/
theorem mask2_eq : maskNodata [[1, 2], [3, 100]] (nodataOr none)
    = [[some 1, some 2], [some 3, some 100]] := by
  norm_num [maskNodata, nodataOr]

/-- Full pipeline run on `[[1,2],[3,100]]`, no declared sentinel, `p = 75`. -/
theorem run2_75 : analyze [[1, 2], [3, 100]] T0 none 75
    = some ⟨109/4, [(43/2, 23/2)], 4, 4⟩ := by
  have hperc : percentile (validVals (maskNodata [[1, 2], [3, 100]] (nodataOr none))) 75
      = some (109/4) := by
    rw [mask2_eq]
    exact perc2_75
  rw [analyze_eq_some hperc, mask2_eq]
  rw [show validVals [[some 1, some 2], [some 3, some 100]] = [1, 2, 3, 100] from rfl]
  rw [cells2_75]
  rw [show List.map (hotspotCoord T0) [(1, 1)] = [hotspotCoord T0 (1, 1)] from rfl,
    coord_T0_11]
  rfl

/-- Full pipeline run on `[[1,2],[3,100]]`, no declared sentinel, `p = 100`. -/
theorem run2_100 : analyze [[1, 2], [3, 100]] T0 none 100
    = some ⟨100, [], 4, 4⟩ := by
  have hperc : percentile (validVals (maskNodata [[1, 2], [3, 100]] (nodataOr none))) 100
      = some 100 := by
    rw [mask2_eq]
    exact perc2_100
  rw [analyze_eq_some hperc, mask2_eq]
  rw [show validVals [[some 1, some 2], [some 3, some 100]] = [1, 2, 3, 100] from rfl]
  rw [cells2_100]
  rfl

/-- Destructuring a successful run: the threshold comes from line 76 and the
output list is the image of the qualifying cells under the coordinate
conversion of lines 81-86. -/
theorem analyze_some_elim {band : List (List ℚ)} {T : Affine} {declared : Option ℚ}
    {p : ℚ} {res : RunResult} (e : analyze band T declared p = some res) :
    ∃ t, percentile (validVals (maskNodata band (nodataOr declared))) p = some t
      ∧ res = ⟨t, (hotspotCells (maskNodata band (nodataOr declared)) t).map (hotspotCoord T),
          (validVals (maskNodata band (nodataOr declared))).length,
          (maskNodata band (nodataOr declared)).flatten.length⟩ := by
  unfold analyze at e
  revert e
  cases hper : percentile (validVals (maskNodata band (nodataOr declared))) p with
  | none => intro e; cases e
  | some t => intro e; exact ⟨t, rfl, (Option.some.inj e).symm⟩

/-- Rounding half to even moves a value by at most one half. -/
theorem abs_roundHalfEvenInt_sub_le (y : ℚ) : |(roundHalfEvenInt y : ℚ) - y| ≤ 1/2 := by
  have hf1 : ((⌊y⌋ : ℤ) : ℚ) ≤ y := Int.floor_le y
  have hf2 : y < (⌊y⌋ : ℚ) + 1 := Int.lt_floor_add_one y
  unfold roundHalfEvenInt
  split_ifs with hA hB hC
  · rw [abs_le]
    constructor <;> linarith
  · rw [abs_le]
    push_cast
    constructor <;> linarith
  · rw [abs_le]
    constructor <;> linarith
  · rw [abs_le]
    push_cast
    constructor <;> linarith

/-- `np.round(·, 6)` moves a value by at most `5e-7 ≤ 1e-6`. -/
theorem abs_round6_sub_le (x : ℚ) : |round6 x - x| ≤ 1/1000000 := by
  have h := abs_roundHalfEvenInt_sub_le (x * 1000000)
  unfold round6
  rw [abs_le] at h ⊢
  constructor <;> linarith [h.1, h.2]

/-- C4: every emitted pair is the affine transform evaluated at the cell
center (offset `+0.5` in each axis), rounded, in `(latitude, longitude)`
order; for the cell `(0,0)` the emitted pair is within `1e-6` of
`(f + d*0.5 + e*0.5, c + a*0.5 + b*0.5)`. -/
theorem C4_cell_center_latlon (band : List (List ℚ)) (T : Affine) (declared : Option ℚ)
    (p : ℚ) (res : RunResult) (e : analyze band T declared p = some res) :
    (∀ pair ∈ res.hotspots,
        ∃ rc ∈ hotspotCells (maskNodata band (nodataOr declared)) res.threshold,
          pair = (round6 (T.d * ((rc.2 : ℚ) + 1/2) + T.e * ((rc.1 : ℚ) + 1/2) + T.f),
                  round6 (T.a * ((rc.2 : ℚ) + 1/2) + T.b * ((rc.1 : ℚ) + 1/2) + T.c)))
    ∧ (∀ S : Affine,
        |(hotspotCoord S (0, 0)).1 - (S.f + S.d * (1/2) + S.e * (1/2))| ≤ 1/1000000
        ∧ |(hotspotCoord S (0, 0)).2 - (S.c + S.a * (1/2) + S.b * (1/2))| ≤ 1/1000000) := by
  constructor
  · obtain ⟨t, hper, hres⟩ := analyze_some_elim e
    subst hres
    intro pair hp
    obtain ⟨rc, hrc, hpair⟩ := List.mem_map.mp hp
    exact ⟨rc, hrc, by rw [← hpair]; rfl⟩
  · intro S
    constructor
    · have h1 : (xyCenter S 0 0).2 = S.f + S.d * (1/2) + S.e * (1/2) := by
        show S.d * ((0 : ℚ) + 1/2) + S.e * ((0 : ℚ) + 1/2) + S.f
          = S.f + S.d * (1/2) + S.e * (1/2)
        ring
      have h2 : (hotspotCoord S (0, 0)).1 = round6 ((xyCenter S 0 0).2) := rfl
      rw [h2, ← h1]
      exact abs_round6_sub_le _
    · have h1 : (xyCenter S 0 0).1 = S.c + S.a * (1/2) + S.b * (1/2) := by
        show S.a * ((0 : ℚ) + 1/2) + S.b * ((0 : ℚ) + 1/2) + S.c
          = S.c + S.a * (1/2) + S.b * (1/2)
        ring
      have h2 : (hotspotCoord S (0, 0)).2 = round6 ((xyCenter S 0 0).1) := rfl
      rw [h2, ← h1]
      exact abs_round6_sub_le _

/-- Witness for C4 at `T0`: the `(0,0)` cell center maps to
`(20.5, 10.5)` and the emitted pair agrees within `1e-6`. -/
theorem C4_cell_center_latlon_witness :
    |(hotspotCoord T0 (0, 0)).1 - (T0.f + T0.d * (1/2) + T0.e * (1/2))| ≤ 1/1000000
    ∧ |(hotspotCoord T0 (0, 0)).2 - (T0.c + T0.a * (1/2) + T0.b * (1/2))| ≤ 1/1000000 :=
  (C4_cell_center_latlon [[1, 2], [3, 100]] T0 none 75 _ run2_75).2 T0

/-- C10: both coordinates of every emitted pair are exact integer multiples
of `1e-6` (they are produced by `np.round(·, 6)`). -/
theorem C10_coords_multiples_of_micro (band : List (List ℚ)) (T : Affine)
    (declared : Option ℚ) (p : ℚ) (res : RunResult)
    (e : analyze band T declared p = some res) (pair : ℚ × ℚ) (hp : pair ∈ res.hotspots) :
    (∃ k : ℤ, pair.1 = (k : ℚ) / 1000000) ∧ (∃ k : ℤ, pair.2 = (k : ℚ) / 1000000) := by
  obtain ⟨t, hper, hres⟩ := analyze_some_elim e
  subst hres
  obtain ⟨rc, hrc, hpair⟩ := List.mem_map.mp hp
  rw [← hpair]
  exact ⟨⟨roundHalfEvenInt ((xyCenter T rc.1 rc.2).2 * 1000000), rfl⟩,
    ⟨roundHalfEvenInt ((xyCenter T rc.1 rc.2).1 * 1000000), rfl⟩⟩

/-- Witness for C10 on the run at `p = 75`: the emitted pair `(43/2, 23/2)`
is made of multiples of `1e-6`. -/
theorem C10_coords_multiples_of_micro_witness :
    (∃ k : ℤ, ((43 : ℚ)/2, (23 : ℚ)/2).1 = (k : ℚ) / 1000000)
    ∧ (∃ k : ℤ, ((43 : ℚ)/2, (23 : ℚ)/2).2 = (k : ℚ) / 1000000) :=
  C10_coords_multiples_of_micro [[1, 2], [3, 100]] T0 none 75 _ run2_75
    ((43 : ℚ)/2, (23 : ℚ)/2) (by simp)

/-- The row-major enumeration of cell indices is strictly increasing in the
row-major order. -/
theorem cellIndices_pairwise (data : List (List (Option ℚ))) :
    List.Pairwise rowMajorLt (cellIndices data) := by
  unfold cellIndices
  rw [List.pairwise_flatMap]
  constructor
  · intro r _
    rw [List.pairwise_map]
    exact (List.pairwise_lt_range _).imp fun h => Or.inr ⟨rfl, h⟩
  · refine (List.pairwise_lt_range _).imp ?_
    intro r1 r2 h12 x hx y hy
    obtain ⟨c1, _, rfl⟩ := List.mem_map.mp hx
    obtain ⟨c2, _, rfl⟩ := List.mem_map.mp hy
    exact Or.inl h12

/-- C8: the hotspot cell list is strictly sorted in row-major order (rows
ascending, ties broken by ascending column), and the pipeline is a pure
function of its inputs: identical inputs give identical outputs. -/
theorem C8_rowmajor_deterministic :
    (∀ (data : List (List (Option ℚ))) (t : ℚ),
        List.Pairwise rowMajorLt (hotspotCells data t))
    ∧ (∀ (b1 b2 : List (List ℚ)) (T1 T2 : Affine) (d1 d2 : Option ℚ) (p1 p2 : ℚ),
        b1 = b2 → T1 = T2 → d1 = d2 → p1 = p2 →
          analyze b1 T1 d1 p1 = analyze b2 T2 d2 p2) := by
  constructor
  · intro data t
    exact (cellIndices_pairwise data).filter _
  · intro b1 b2 T1 T2 d1 d2 p1 p2 hb hT hd hp
    rw [hb, hT, hd, hp]

/-- Witness for C8: two runs on the identical concrete inputs agree. -/
theorem C8_rowmajor_deterministic_witness :
    analyze [[1, 2], [3, 100]] T0 none 75 = analyze [[1, 2], [3, 100]] T0 none 75 :=
  C8_rowmajor_deterministic.2 _ _ _ _ _ _ _ _ rfl rfl rfl rfl

/-- Reading a sorted list at increasing positions gives increasing values. -/
theorem sorted_getD_mono {s : List ℚ} (hs : List.Sorted (· ≤ ·) s) {i j : ℕ}
    (hij : i ≤ j) (hj : j < s.length) : s.getD i 0 ≤ s.getD j 0 := by
  have hi : i < s.length := lt_of_le_of_lt hij hj
  rw [List.getD_eq_getElem _ _ hi, List.getD_eq_getElem _ _ hj]
  have h := hs.rel_get_of_le (a := ⟨i, hi⟩) (b := ⟨j, hj⟩) hij
  simpa [List.get_eq_getElem] using h

/-- The interpolated value lies between the two order statistics it
interpolates. -/
theorem interpAt_between {s : List ℚ} {m : ℕ} (hs : List.Sorted (· ≤ ·) s)
    (hlen : s.length = m + 1) {h : ℚ} (h0 : 0 ≤ h) (hm : h ≤ m) :
    s.getD ⌊h⌋.toNat 0 ≤ interpAt s m h
    ∧ interpAt s m h ≤ s.getD (min (⌊h⌋.toNat + 1) m) 0 := by
  have hfl0 : (0 : ℤ) ≤ ⌊h⌋ := Int.le_floor.mpr (by exact_mod_cast h0)
  have hflm : ⌊h⌋ ≤ (m : ℤ) := by
    have h2 := Int.floor_mono hm
    rwa [Int.floor_natCast] at h2
  have hile : ⌊h⌋.toNat ≤ m := by omega
  have hjlen : min (⌊h⌋.toNat + 1) m < s.length := by omega
  have hd : s.getD ⌊h⌋.toNat 0 ≤ s.getD (min (⌊h⌋.toNat + 1) m) 0 :=
    sorted_getD_mono hs (le_min (Nat.le_succ _) hile) hjlen
  have hg0 : 0 ≤ h - ⌊h⌋ := by
    have h3 := Int.floor_le h
    linarith
  have hg1 : h - ⌊h⌋ < 1 := by
    have h3 := Int.lt_floor_add_one h
    linarith
  constructor
  · unfold interpAt
    nlinarith [hd, hg0]
  · unfold interpAt
    nlinarith [hd, hg0, hg1]

/-- Monotonicity of linear interpolation between order statistics of a sorted
list, in the fractional index. -/
theorem interpAt_mono {s : List ℚ} {m : ℕ} (hs : List.Sorted (· ≤ ·) s)
    (hlen : s.length = m + 1) {h1 h2 : ℚ} (h0 : 0 ≤ h1) (h12 : h1 ≤ h2) (hm : h2 ≤ m) :
    interpAt s m h1 ≤ interpAt s m h2 := by
  have h01 : (0 : ℤ) ≤ ⌊h1⌋ := Int.le_floor.mpr (by exact_mod_cast h0)
  have hfl : ⌊h1⌋ ≤ ⌊h2⌋ := Int.floor_mono h12
  have hflm2 : ⌊h2⌋ ≤ (m : ℤ) := by
    have h3 := Int.floor_mono hm
    rwa [Int.floor_natCast] at h3
  rcases eq_or_lt_of_le hfl with heq | hlt
  · have hile : ⌊h1⌋.toNat ≤ m := by omega
    have hd : s.getD ⌊h1⌋.toNat 0 ≤ s.getD (min (⌊h1⌋.toNat + 1) m) 0 :=
      sorted_getD_mono hs (le_min (Nat.le_succ _) hile) (by omega)
    unfold interpAt
    rw [← heq]
    nlinarith [hd, h12]
  · have hi1m : ⌊h1⌋.toNat < m := by omega
    have hj1 : min (⌊h1⌋.toNat + 1) m = ⌊h1⌋.toNat + 1 := min_eq_left (by omega)
    have hup : interpAt s m h1 ≤ s.getD (⌊h1⌋.toNat + 1) 0 := by
      have h4 := (interpAt_between hs hlen h0 (le_trans h12 hm)).2
      rwa [hj1] at h4
    have hmid : s.getD (⌊h1⌋.toNat + 1) 0 ≤ s.getD ⌊h2⌋.toNat 0 :=
      sorted_getD_mono hs (by omega) (by omega)
    have hlo : s.getD ⌊h2⌋.toNat 0 ≤ interpAt s m h2 :=
      (interpAt_between hs hlen (le_trans h0 h12) hm).1
    linarith

/-- A successful percentile call names a nonempty input and returns the
linear interpolation between order statistics. -/
theorem percentile_some_elim {vals : List ℚ} {p t : ℚ} (e : percentile vals p = some t) :
    vals.length ≠ 0
    ∧ t = interpAt (vals.insertionSort (· ≤ ·)) (vals.length - 1)
        (p / 100 * ((vals.length : ℚ) - 1)) := by
  unfold percentile at e
  by_cases hA : p < 0 ∨ 100 < p
  · rw [if_pos hA] at e
    cases e
  · rw [if_neg hA] at e
    by_cases hB : vals.length = 0
    · rw [if_pos hB] at e
      cases e
    · rw [if_neg hB] at e
      exact ⟨hB, (Option.some.inj e).symm⟩

/-- The percentile threshold is monotone in the percentile parameter. -/
theorem percentile_mono {vals : List ℚ} {p1 p2 : ℚ} {t1 t2 : ℚ}
    (h0 : 0 ≤ p1) (h12 : p1 ≤ p2) (h100 : p2 ≤ 100)
    (e1 : percentile vals p1 = some t1) (e2 : percentile vals p2 = some t2) :
    t1 ≤ t2 := by
  obtain ⟨hB, ht1⟩ := percentile_some_elim e1
  obtain ⟨-, ht2⟩ := percentile_some_elim e2
  rw [ht1, ht2]
  obtain ⟨m, hm⟩ : ∃ m, vals.length = m + 1 := ⟨vals.length - 1, by omega⟩
  have hnn : (0 : ℚ) ≤ (vals.length : ℚ) - 1 := by
    rw [hm]
    push_cast
    linarith
  have hlen : (vals.insertionSort (· ≤ ·)).length = (vals.length - 1) + 1 := by
    rw [List.length_insertionSort, hm]
    omega
  apply interpAt_mono (List.sorted_insertionSort _ _) hlen
  · exact mul_nonneg (by linarith) hnn
  · exact mul_le_mul_of_nonneg_right (by linarith) hnn
  · have hle1 : p2 / 100 ≤ 1 := by linarith
    have h5 : p2 / 100 * ((vals.length : ℚ) - 1) ≤ (vals.length : ℚ) - 1 := by
      nlinarith [hnn, hle1]
    have h6 : ((vals.length - 1 : ℕ) : ℚ) = (vals.length : ℚ) - 1 := by
      rw [hm]
      push_cast
      ring
    linarith [h6 ▸ h5]

/-- Raising the threshold can only shrink the hotspot cell count. -/
theorem hotspotCells_length_anti {data : List (List (Option ℚ))} {t1 t2 : ℚ}
    (h : t1 ≤ t2) :
    (hotspotCells data t2).length ≤ (hotspotCells data t1).length := by
  unfold hotspotCells
  rw [← List.countP_eq_length_filter, ← List.countP_eq_length_filter]
  apply List.countP_mono_left
  intro rc _ hhot
  obtain ⟨v, hv, hlt⟩ := isHot_iff.mp hhot
  exact isHot_iff.mpr ⟨v, hv, lt_of_le_of_lt h hlt⟩

/-- C6: with the grid, transform and sentinel fixed, the number of emitted
hotspots is monotonically non-increasing in the percentile parameter. -/
theorem C6_hotspot_count_antitone (band : List (List ℚ)) (T : Affine)
    (declared : Option ℚ) {p1 p2 : ℚ} (h0 : 0 ≤ p1) (h12 : p1 ≤ p2) (h100 : p2 ≤ 100)
    {res1 res2 : RunResult}
    (e1 : analyze band T declared p1 = some res1)
    (e2 : analyze band T declared p2 = some res2) :
    res2.hotspots.length ≤ res1.hotspots.length := by
  obtain ⟨t1, hp1, hr1⟩ := analyze_some_elim e1
  obtain ⟨t2, hp2, hr2⟩ := analyze_some_elim e2
  subst hr1
  subst hr2
  simp only [List.length_map]
  exact hotspotCells_length_anti (percentile_mono h0 h12 h100 hp1 hp2)

/-- Witness for C6: on `[[1,2],[3,100]]`, `p = 75` yields one hotspot and
`p = 100` yields none; the count does not increase. -/
theorem C6_hotspot_count_antitone_witness :
    (⟨100, [], 4, 4⟩ : RunResult).hotspots.length
      ≤ (⟨109/4, [(43/2, 23/2)], 4, 4⟩ : RunResult).hotspots.length :=
  C6_hotspot_count_antitone [[1, 2], [3, 100]] T0 none
    (by norm_num) (by norm_num) (by norm_num) run2_75 run2_100

/-- C7: on a nonempty grid with no sentinel cells, the percentile threshold at
`p = 100` is the maximum sample value (it belongs to the samples and bounds
them all), and no cell qualifies as a hotspot under the strict comparison. -/
theorem C7_p100_max_no_hotspots (band : List (List ℚ)) (T : Affine) (declared : Option ℚ)
    (hne : band.flatten ≠ [])
    (hsent : ∀ v ∈ band.flatten, v ≠ nodataOr declared) :
    ∃ res, analyze band T declared 100 = some res
      ∧ res.threshold ∈ band.flatten
      ∧ (∀ v ∈ band.flatten, v ≤ res.threshold)
      ∧ res.hotspots = [] := by
  have hvalid : validVals (maskNodata band (nodataOr declared)) = band.flatten := by
    rw [validVals_maskNodata]
    apply List.filter_eq_self.mpr
    intro a ha
    simpa using hsent a ha
  have hn : band.flatten.length ≠ 0 := fun h0 => hne (List.length_eq_zero.mp h0)
  obtain ⟨m, hm⟩ : ∃ m, band.flatten.length = m + 1 := ⟨band.flatten.length - 1, by omega⟩
  have hs : List.Sorted (· ≤ ·) (band.flatten.insertionSort (· ≤ ·)) :=
    List.sorted_insertionSort _ _
  have hlen : (band.flatten.insertionSort (· ≤ ·)).length = m + 1 := by
    rw [List.length_insertionSort, hm]
  have hperm : ∀ v, v ∈ band.flatten.insertionSort (· ≤ ·) ↔ v ∈ band.flatten :=
    fun v => (List.perm_insertionSort _ _).mem_iff
  have hmlt : m < (band.flatten.insertionSort (· ≤ ·)).length := by omega
  have hinterp : interpAt (band.flatten.insertionSort (· ≤ ·)) m ((m : ℕ) : ℚ)
      = (band.flatten.insertionSort (· ≤ ·)).getD m 0 := by
    unfold interpAt
    rw [Int.floor_natCast, Int.toNat_ofNat]
    rw [show ((m : ℕ) : ℚ) - (((m : ℕ) : ℤ) : ℚ) = 0 from by push_cast; ring,
      zero_mul, add_zero]
  have hperc : percentile band.flatten 100
      = some ((band.flatten.insertionSort (· ≤ ·)).getD m 0) := by
    unfold percentile
    rw [if_neg (by norm_num), if_neg hn]
    rw [show band.flatten.length - 1 = m from by omega]
    rw [show (100 : ℚ) / 100 * ((band.flatten.length : ℚ) - 1) = ((m : ℕ) : ℚ) from by
      rw [hm]; push_cast; ring]
    rw [hinterp]
  have hmax_mem : (band.flatten.insertionSort (· ≤ ·)).getD m 0 ∈ band.flatten := by
    rw [List.getD_eq_getElem _ _ hmlt]
    exact (hperm _).mp (List.getElem_mem hmlt)
  have hmax_ub : ∀ v ∈ band.flatten,
      v ≤ (band.flatten.insertionSort (· ≤ ·)).getD m 0 := by
    intro v hv
    obtain ⟨k, hk, hkv⟩ := List.mem_iff_getElem.mp ((hperm v).mpr hv)
    rw [← hkv, ← List.getD_eq_getElem _ 0 hk]
    exact sorted_getD_mono hs (by omega) (by omega)
  have hcells : hotspotCells (maskNodata band (nodataOr declared))
      ((band.flatten.insertionSort (· ≤ ·)).getD m 0) = [] := by
    unfold hotspotCells
    rw [List.filter_eq_nil_iff]
    intro rc hrc hhot
    obtain ⟨v, hv, hlt⟩ := isHot_iff.mp hhot
    have hvmem : v ∈ validVals (maskNodata band (nodataOr declared)) :=
      cellVal_mem_validVals hv
    rw [hvalid] at hvmem
    exact absurd (hmax_ub v hvmem) (not_le.mpr hlt)
  have hperc2 : percentile (validVals (maskNodata band (nodataOr declared))) 100
      = some ((band.flatten.insertionSort (· ≤ ·)).getD m 0) := by
    rw [hvalid]
    exact hperc
  refine ⟨⟨(band.flatten.insertionSort (· ≤ ·)).getD m 0, [],
      (validVals (maskNodata band (nodataOr declared))).length,
      (maskNodata band (nodataOr declared)).flatten.length⟩, ?_, hmax_mem, hmax_ub, rfl⟩
  rw [analyze_eq_some hperc2, hcells]
  rfl

/-- Witness for C7 on `[[1,2],[3,100]]` with no sentinel cell: the threshold
at `p = 100` is the maximum and there are no hotspots. -/
theorem C7_p100_max_no_hotspots_witness :
    (([[1, 2], [3, 100]] : List (List ℚ)).flatten ≠ [])
    ∧ ∃ res, analyze [[1, 2], [3, 100]] T0 none 100 = some res
        ∧ res.threshold ∈ ([[1, 2], [3, 100]] : List (List ℚ)).flatten
        ∧ (∀ v ∈ ([[1, 2], [3, 100]] : List (List ℚ)).flatten, v ≤ res.threshold)
        ∧ res.hotspots = [] := by
  refine ⟨by simp, C7_p100_max_no_hotspots [[1, 2], [3, 100]] T0 none (by simp) ?_⟩
  intro v hv
  rw [show nodataOr none = -9999 from rfl]
  have hv4 : v = 1 ∨ v = 2 ∨ v = 3 ∨ v = 100 := by simpa using hv
  rcases hv4 with rfl | rfl | rfl | rfl <;> norm_num
